import Mathlib

/-!
Shallow embedding of the DNS manager component of NetworkManager
(src/src/dns-manager/nm-dns-manager.c) together with theorems checking
the natural-language specification against it.

Modelling conventions:
- C strings become `String`; `NULL`-able strings become `Option String`.
- GSList / GPtrArray become `List`; `g_slist_append` / `g_ptr_array_add`
  append at the tail, `g_slist_remove` erases the first occurrence.
- Pointer identity of attached NMIP4Config/NMIP6Config objects is modelled
  by structural equality of `IPConfig` values (the `idTag` field plays the
  role of the address, so distinct objects are distinct values).
- The SHA1 digest of `compute_hash` is modelled injectively by a `Digest`
  value carrying the exact data that is fed to the checksum; the zeroed
  digest produced by `memset` is the separate constructor `Digest.zero`.
- External collaborators that are not part of this repository
  (soup_tld_domain_is_public_suffix, nm_utils_ipaddr_valid,
  nm_utils_is_specific_hostname, _nm_utils_dns_option_find_idx, the
  global-DNS configuration, and the outcome of nm_dns_plugin_update)
  are abstracted as components of an environment record `Env`.
- IPv6 nameserver rendering (inet_ntop plus the link-local zone suffix) is
  absorbed into the stored nameserver strings: rendering is injective on
  addresses, and every claim treats nameservers as opaque strings.
-/

namespace NMDnsMgr

/-! ### Basic string helpers (strchr / strstr counterparts) -/

/-- strchr(s, '.') followed by ++: the part of the string after the first
dot, or none when the string has no dot. -/
def afterFirstDotL : List Char → Option (List Char)
  | [] => none
  | c :: rest => if c = '.' then some rest else afterFirstDotL rest

def afterFirstDot (s : String) : Option String :=
  (afterFirstDotL s.data).map (fun l => String.mk l)

/-- strchr(s, '.') != NULL. -/
def containsDot (s : String) : Bool :=
  s.data.any (fun c => c == '.')

def isPrefixOfL : List Char → List Char → Bool
  | [], _ => true
  | _ :: _, [] => false
  | a :: as', b :: bs' => a == b && isPrefixOfL as' bs'

def containsSubL (needle : List Char) : List Char → Bool
  | [] => isPrefixOfL needle []
  | c :: rest => isPrefixOfL needle (c :: rest) || containsSubL needle rest

/-- strstr(hay, needle) != NULL. -/
def strContains (hay needle : String) : Bool :=
  containsSubL needle.data hay.data

/-! ### Data model -/

/-- Runtime type of a config object: NMIP4Config or NMIP6Config. -/
inductive Fam
  | ip4
  | ip6
deriving DecidableEq, Repr

/-- One per-interface or per-VPN DNS fact bundle (NMIP4Config/NMIP6Config,
restricted to the fields the DNS manager reads).  `idTag` models the object
address, so that structural equality models pointer equality. -/
structure IPConfig where
  idTag : Nat
  nameservers : List String
  domains : List String
  searches : List String
  options : List String
  nisDomain : Option String
  nisServers : List String
deriving DecidableEq, Repr

/-- The optional global DNS override (NMGlobalDnsConfig).  `defaultServers`
is the server list of its "*" domain, which `update_dns` asserts to exist. -/
structure GlobalDnsConfig where
  searches : List String
  options : List String
  defaultServers : List String
deriving DecidableEq, Repr

/-- The configured caching plugin (NMDnsPlugin), reduced to the one
property the manager queries: nm_dns_plugin_is_caching. -/
structure DnsPlugin where
  is_caching : Bool
deriving DecidableEq, Repr

/-- NMDnsManagerResolvConfManager. -/
inductive RcManager
  | unknown
  | unmanaged
  | immutable
  | symlink
  | file
  | resolvconf
  | netconfig
deriving DecidableEq, Repr

/-- The SHA1 digest of compute_hash, modelled injectively: `conf` carries
exactly the data hashed (global config, then the ordered configs), `zero`
is the all-zero buffer written by memset in nm_dns_manager_end_updates. -/
inductive Digest
  | zero
  | conf (global : Option GlobalDnsConfig) (sources : List (Fam × IPConfig))
deriving DecidableEq, Repr

/-- NMResolvConfData: the accumulator of the merge. -/
structure RcData where
  nameservers : List String
  searches : List String
  options : List String
  nis_domain : Option String
  nis_servers : List String
deriving DecidableEq, Repr

def emptyRc : RcData := ⟨[], [], [], none, []⟩

/-- Record of one update_dns invocation: the lists handed to the
persistence backend, plus whether the system path is updated at all
(rc-manager not unmanaged/immutable) and whether caching was substituted. -/
structure CommitRecord where
  searches : List String
  nameservers : List String
  options : List String
  nis_domain : Option String
  nis_servers : List String
  update : Bool
  caching : Bool
deriving DecidableEq, Repr

/-- NMDnsManagerPrivate.  `commits` is a ghost log of update_dns calls. -/
structure DnsManager where
  ip4_vpn_configs : List IPConfig
  ip4_device_config : Option IPConfig
  ip6_vpn_configs : List IPConfig
  ip6_device_config : Option IPConfig
  configs : List (Fam × IPConfig)
  hostname : Option String
  updates_queue : Nat
  hash : Digest
  prev_hash : Digest
  plugin : Option DnsPlugin
  rc_manager : RcManager
  commits : List CommitRecord
deriving DecidableEq, Repr

/-- NMDnsIPConfigType. -/
inductive CfgType
  | vpn
  | bestDevice
  | dflt
deriving DecidableEq, Repr

/-- Environment: the external collaborators the DNS manager calls out to,
fixed for the duration of a scenario. -/
structure Env where
  isPublicSuffix : String → Bool
  isIPAddr : String → Bool
  isSpecificHostname : String → Bool
  dnsOptionFound : List String → String → Bool
  global : Option GlobalDnsConfig
  pluginUpdateOk : Bool

/-- DOMAIN_IS_VALID(domain): *(domain) && !soup_tld_domain_is_public_suffix. -/
def domainIsValid (env : Env) (d : String) : Bool :=
  !d.isEmpty && !(env.isPublicSuffix d)

/-! ### Merge engine -/

/-- add_string_item: scan the array for an exact strcmp duplicate, append
at the end if none is found. -/
def add_string_item (arr : List String) (s : String) : List String :=
  if arr.any (fun c => c == s) then arr else arr ++ [s]

/-- add_dns_option_item: append unless _nm_utils_dns_option_find_idx finds
the option already present (that external lookup is part of `Env`). -/
def add_dns_option_item (env : Env) (arr : List String) (s : String) : List String :=
  if env.dnsOptionFound arr s then arr else arr ++ [s]

/-- merge_one_ip4_config. -/
def merge_one_ip4_config (env : Env) (rc : RcData) (src : IPConfig) : RcData :=
  let ns := src.nameservers.foldl add_string_item rc.nameservers
  let se := (src.searches.filter (fun s => domainIsValid env s)).foldl add_string_item rc.searches
  let se :=
    if src.domains.length > 1 ∨ src.searches.length = 0 then
      (src.domains.filter (fun s => domainIsValid env s)).foldl add_string_item se
    else se
  let op := src.options.foldl (add_dns_option_item env) rc.options
  let niss := src.nisServers.foldl add_string_item rc.nis_servers
  let nisd :=
    match src.nisDomain with
    | none => rc.nis_domain
    | some d => match rc.nis_domain with
                | none => some d
                | some d' => some d'
  ⟨ns, se, op, nisd, niss⟩

/-- merge_one_ip6_config: same as the IPv4 variant but with no NIS
handling (nameserver rendering is absorbed into the stored strings). -/
def merge_one_ip6_config (env : Env) (rc : RcData) (src : IPConfig) : RcData :=
  let ns := src.nameservers.foldl add_string_item rc.nameservers
  let se := (src.searches.filter (fun s => domainIsValid env s)).foldl add_string_item rc.searches
  let se :=
    if src.domains.length > 1 ∨ src.searches.length = 0 then
      (src.domains.filter (fun s => domainIsValid env s)).foldl add_string_item se
    else se
  let op := src.options.foldl (add_dns_option_item env) rc.options
  ⟨ns, se, op, rc.nis_domain, rc.nis_servers⟩

def mergeStep (env : Env) (rc : RcData) (p : Fam × IPConfig) : RcData :=
  match p.1 with
  | Fam.ip4 => merge_one_ip4_config env rc p.2
  | Fam.ip6 => merge_one_ip6_config env rc p.2

/-- NM_IN_SET (iter->data, priv->ip4_device_config, priv->ip6_device_config). -/
def isDeviceConfig (m : DnsManager) (c : IPConfig) : Bool :=
  m.ip4_device_config == some c || m.ip6_device_config == some c

/-- The order in which both compute_hash and the merge loop of update_dns
walk the active configs: IPv4 VPNs, IPv4 best device, IPv6 VPNs, IPv6 best
device, then the remaining entries of priv->configs (skipping the two
device configs, which were already visited). -/
def orderedSources (m : DnsManager) : List (Fam × IPConfig) :=
  m.ip4_vpn_configs.map (fun c => (Fam.ip4, c))
    ++ (match m.ip4_device_config with
        | some c => [(Fam.ip4, c)]
        | none => [])
    ++ m.ip6_vpn_configs.map (fun c => (Fam.ip6, c))
    ++ (match m.ip6_device_config with
        | some c => [(Fam.ip6, c)]
        | none => [])
    ++ m.configs.filter (fun p => !(isDeviceConfig m p.2))

/-- compute_hash: digest over the global config and the ordered sources. -/
def compute_hash (env : Env) (m : DnsManager) : Digest :=
  Digest.conf env.global (orderedSources m)

/-- merge_global_dns_config. -/
def merge_global_dns_config (env : Env) (rc : RcData) (g : GlobalDnsConfig) : RcData :=
  let se := (g.searches.filter (fun s => domainIsValid env s)).foldl add_string_item rc.searches
  let op := g.options.foldl add_string_item rc.options
  let ns := g.defaultServers.foldl add_string_item rc.nameservers
  ⟨ns, se, op, rc.nis_domain, rc.nis_servers⟩

/-- The per-source (or global-override) part of the merge in update_dns. -/
def mergeAllPre (env : Env) (m : DnsManager) : RcData :=
  match env.global with
  | some g => merge_global_dns_config env emptyRc g
  | none => (orderedSources m).foldl (mergeStep env) emptyRc

/-- The hostname block of update_dns: if the hostname has a dot and is not
a literal IP address, add the part after the first dot when it is a valid
domain, else the whole hostname when that is valid.  Only the search list
is touched, so the step is phrased on it. -/
def hostnameSearches (env : Env) (hostname : Option String)
    (searches : List String) : List String :=
  match hostname with
  | none => searches
  | some hn =>
    match afterFirstDot hn with
    | none => searches
    | some hd =>
      if env.isIPAddr hn then searches
      else if domainIsValid env hd then add_string_item searches hd
      else if domainIsValid env hn then add_string_item searches hn
      else searches

def applyHostname (env : Env) (hostname : Option String) (rc : RcData) : RcData :=
  { rc with searches := hostnameSearches env hostname rc.searches }

/-- The merged data just before search-list truncation. -/
def mergeAll (env : Env) (m : DnsManager) : RcData :=
  applyHostname env m.hostname (mergeAllPre env m)

/-! ### Search-list truncation -/

/-- The loop of update_dns that truncates rc.searches: walk at most
min(len, 6) entries, accumulating strlen+1 per entry, and cut at the first
entry whose inclusion pushes the total above 256. -/
def truncSearchesAux : List String → Nat → Nat → List String
  | [], _, _ => []
  | _ :: _, 0, _ => []
  | s :: rest, n + 1, acc =>
    if acc + (s.length + 1) > 256 then []
    else s :: truncSearchesAux rest n (acc + (s.length + 1))

def truncateSearches (searches : List String) : List String :=
  truncSearchesAux searches (min searches.length 6) 0

/-- Cumulative cost of a search list: each entry counts its length plus
one separator character. -/
def searchCost : List String → Nat
  | [] => 0
  | s :: rest => (s.length + 1) + searchCost rest

/-! ### update_dns and the manager operations -/

/-- The data one update_dns pass computes and hands to the persistence
backend, including the caching-plugin substitution. -/
def mkCommitRecord (env : Env) (no_caching : Bool) (m : DnsManager) : CommitRecord :=
  let rc := mergeAll env m
  let searches := truncateSearches rc.searches
  let caching : Bool :=
    match m.plugin with
    | none => false
    | some p =>
      if p.is_caching then
        (if no_caching then false else env.pluginUpdateOk)
      else false
  let nameservers := if caching then ["127.0.0.1"] else rc.nameservers
  let update : Bool :=
    match m.rc_manager with
    | RcManager.unmanaged => false
    | RcManager.immutable => false
    | _ => true
  ⟨searches, nameservers, rc.options, rc.nis_domain, rc.nis_servers, update, caching⟩

/-- update_dns: refresh priv->hash from the current config and commit
(the commit itself is recorded in the ghost log). -/
def update_dns (env : Env) (no_caching : Bool) (m : DnsManager) : DnsManager :=
  { m with hash := compute_hash env m,
           commits := m.commits ++ [mkCommitRecord env no_caching m] }

/-- The `if (!priv->updates_queue && !update_dns (...))` pattern shared by
every mutation entry point. -/
def maybe_update (env : Env) (m : DnsManager) : DnsManager :=
  if m.updates_queue = 0 then update_dns env false m else m

/-- nm_dns_manager_begin_updates. -/
def begin_updates (m : DnsManager) : DnsManager :=
  let m1 := if m.updates_queue = 0 then { m with prev_hash := m.hash } else m
  { m1 with updates_queue := m1.updates_queue + 1 }

/-- nm_dns_manager_end_updates: recompute the fingerprint, decrement the
counter, and commit only on the 1-to-0 transition with a changed
fingerprint (after which prev_hash is memset to zero). -/
def end_updates (env : Env) (m : DnsManager) : DnsManager :=
  if m.updates_queue = 0 then m
  else if m.updates_queue - 1 > 0 ∨ compute_hash env m = m.prev_hash then
    { m with updates_queue := m.updates_queue - 1 }
  else
    { update_dns env false { m with updates_queue := m.updates_queue - 1 }
      with prev_hash := Digest.zero }

/-- g_slist_find (priv->configs, config): pointer search in the mixed list. -/
def configsHas (m : DnsManager) (c : IPConfig) : Bool :=
  m.configs.any (fun p => p.2 == c)

/-- g_slist_remove on the mixed list: drop the first entry with this pointer. -/
def eraseCfg : List (Fam × IPConfig) → IPConfig → List (Fam × IPConfig)
  | [], _ => []
  | p :: rest, c => if p.2 = c then rest else p :: eraseCfg rest c

/-- The state mutation of nm_dns_manager_add_ip4_config. -/
def add_ip4_mutate (c : IPConfig) (t : CfgType) (m : DnsManager) : DnsManager :=
  match t with
  | CfgType.vpn =>
    if c ∈ m.ip4_vpn_configs then m
    else { m with ip4_vpn_configs := m.ip4_vpn_configs ++ [c] }
  | CfgType.bestDevice =>
    let m1 := { m with ip4_device_config := some c }
    if configsHas m1 c then m1 else { m1 with configs := m1.configs ++ [(Fam.ip4, c)] }
  | CfgType.dflt =>
    if configsHas m c then m else { m with configs := m.configs ++ [(Fam.ip4, c)] }

def nm_dns_manager_add_ip4_config (env : Env) (c : IPConfig) (t : CfgType)
    (m : DnsManager) : DnsManager × Bool :=
  (maybe_update env (add_ip4_mutate c t m), true)

/-- The state mutation of nm_dns_manager_add_ip6_config. -/
def add_ip6_mutate (c : IPConfig) (t : CfgType) (m : DnsManager) : DnsManager :=
  match t with
  | CfgType.vpn =>
    if c ∈ m.ip6_vpn_configs then m
    else { m with ip6_vpn_configs := m.ip6_vpn_configs ++ [c] }
  | CfgType.bestDevice =>
    let m1 := { m with ip6_device_config := some c }
    if configsHas m1 c then m1 else { m1 with configs := m1.configs ++ [(Fam.ip6, c)] }
  | CfgType.dflt =>
    if configsHas m c then m else { m with configs := m.configs ++ [(Fam.ip6, c)] }

def nm_dns_manager_add_ip6_config (env : Env) (c : IPConfig) (t : CfgType)
    (m : DnsManager) : DnsManager × Bool :=
  (maybe_update env (add_ip6_mutate c t m), true)

/-- nm_dns_manager_remove_ip4_config: returns the new state and the
gboolean result; an unattached config returns FALSE before any change. -/
def nm_dns_manager_remove_ip4_config (env : Env) (c : IPConfig)
    (m : DnsManager) : DnsManager × Bool :=
  if configsHas m c then
    let m1 := { m with
      configs := eraseCfg m.configs c,
      ip4_device_config := if m.ip4_device_config = some c then none else m.ip4_device_config }
    (maybe_update env m1, true)
  else if c ∈ m.ip4_vpn_configs then
    (maybe_update env { m with ip4_vpn_configs := m.ip4_vpn_configs.erase c }, true)
  else
    (m, false)

/-- nm_dns_manager_remove_ip6_config. -/
def nm_dns_manager_remove_ip6_config (env : Env) (c : IPConfig)
    (m : DnsManager) : DnsManager × Bool :=
  if configsHas m c then
    let m1 := { m with
      configs := eraseCfg m.configs c,
      ip6_device_config := if m.ip6_device_config = some c then none else m.ip6_device_config }
    (maybe_update env m1, true)
  else if c ∈ m.ip6_vpn_configs then
    (maybe_update env { m with ip6_vpn_configs := m.ip6_vpn_configs.erase c }, true)
  else
    (m, false)

/-- nm_dns_manager_set_initial_hostname: a bare g_strdup into the field. -/
def nm_dns_manager_set_initial_hostname (hostname : Option String)
    (m : DnsManager) : DnsManager :=
  { m with hostname := hostname }

/-- The hostname filter of nm_dns_manager_set_hostname: keep only specific
(non-auto-generated) hostnames without ".in-addr.arpa" that contain a dot. -/
def hostnameFilter (env : Env) (hostname : Option String) : Option String :=
  match hostname with
  | none => none
  | some h =>
    if env.isSpecificHostname h && !(strContains h ".in-addr.arpa") && containsDot h
    then some h else none

/-- The early-return test of nm_dns_manager_set_hostname: both NULL, or
both set and strcmp-equal. -/
def hostnameSame : Option String → Option String → Bool
  | none, none => true
  | some a, some b => a == b
  | _, _ => false

/-- nm_dns_manager_set_hostname. -/
def nm_dns_manager_set_hostname (env : Env) (hostname : Option String)
    (m : DnsManager) : DnsManager :=
  let filtered := hostnameFilter env hostname
  if hostnameSame m.hostname filtered then m
  else maybe_update env { m with hostname := filtered }

/-! ### Plugin child-quit rate limiter -/

def PLUGIN_RATELIMIT_INTERVAL : Nat := 30
def PLUGIN_RATELIMIT_BURST : Nat := 5
def PLUGIN_RATELIMIT_DELAY : Nat := 300

/-- priv->plugin_ratelimit.  `ts` is a monotonic millisecond timestamp
(0 = window not started); `timerScheduled` models a pending
g_timeout_add_seconds retry. -/
structure RateLimitState where
  ts : Nat
  num_restarts : Nat
  timerScheduled : Bool
deriving DecidableEq, Repr

/-- What one plugin_child_quit invocation does besides mutating the
rate-limit state: respawn immediately (via plugin_child_quit_update_dns)
or schedule a single deferred retry this many seconds later. -/
inductive QuitAction
  | respawnNow
  | deferRetry (delaySeconds : Nat)
deriving DecidableEq, Repr

/-- plugin_child_quit, given the current monotonic time in milliseconds. -/
def plugin_child_quit (rl : RateLimitState) (now : Nat) : RateLimitState × QuitAction :=
  if rl.ts = 0 ∨ (now - rl.ts) / 1000 > PLUGIN_RATELIMIT_INTERVAL then
    ({ ts := now, num_restarts := 0, timerScheduled := rl.timerScheduled },
     QuitAction.respawnNow)
  else
    let n := rl.num_restarts + 1
    if n > PLUGIN_RATELIMIT_BURST then
      ({ rl with num_restarts := n, timerScheduled := true },
       QuitAction.deferRetry PLUGIN_RATELIMIT_DELAY)
    else
      ({ rl with num_restarts := n }, QuitAction.respawnNow)

/-- A sequence of child deaths at the given timestamps, collecting the
action taken at each. -/
def runDeaths (rl : RateLimitState) : List Nat → RateLimitState × List QuitAction
  | [] => (rl, [])
  | t :: rest =>
    let step := plugin_child_quit rl t
    let tail := runDeaths step.1 rest
    (tail.1, step.2 :: tail.2)

/-! ### update_resolv_conf (persistence to the system resolver path) -/

/-- MY_RESOLV_CONF: NMRUNDIR "/resolv.conf", the private runtime copy. -/
def MY_RESOLV_CONF : String := "/var/run/NetworkManager/resolv.conf"

/-- Result of lstat(_PATH_RESCONF). -/
inductive LstatKind
  | enoent
  | errOther
  | isLink
  | notLink
deriving DecidableEq, Repr

/-- Filesystem operations update_resolv_conf can perform.  The first two
touch only the private runtime copy; the rest touch the system path. -/
inductive FsOp
  | writeEtcDirect
  | writeTmp
  | renamePrivate
  | unlinkTmpLink
  | makeSymlink
  | renameSymlink
deriving DecidableEq, Repr

inductive SpawnResult
  | success
  | notfound
  | error
deriving DecidableEq, Repr

/-- The filesystem environment one update_resolv_conf call runs against:
what lstat/stat/readlink observe and which write steps succeed. -/
structure FsEnv where
  readlinkTarget : Option String
  lstatResult : LstatKind
  statOk : Bool
  etcWriteOk : Bool
  tmpOpenOk : Bool
  tmpWriteOk : Bool
  tmpCloseOk : Bool
  renamePrivateOk : Bool
  unlinkOk : Bool
  unlinkErrIsEnoent : Bool
  symlinkOk : Bool
  renameSymlinkOk : Bool
deriving DecidableEq, Repr

/-- The tail of update_resolv_conf that replaces /etc/resolv.conf with a
symlink to the private copy (unlink temp, symlink, rename). -/
def replaceSymlink (fs : FsEnv) (ops : List FsOp) : SpawnResult × List FsOp :=
  let ops1 := ops ++ [FsOp.unlinkTmpLink]
  if fs.unlinkOk = false ∧ fs.unlinkErrIsEnoent = false then (SpawnResult.error, ops1)
  else if fs.symlinkOk = false then (SpawnResult.error, ops1)
  else
    let ops2 := ops1 ++ [FsOp.makeSymlink]
    if fs.renameSymlinkOk = false then (SpawnResult.error, ops2)
    else (SpawnResult.success, ops2 ++ [FsOp.renameSymlink])

/-- update_resolv_conf, returning the SpawnResult and the filesystem
operations attempted, in order. -/
def update_resolv_conf (fs : FsEnv) (rc : RcManager) : SpawnResult × List FsOp :=
  if rc = RcManager.unmanaged ∧ fs.readlinkTarget = some MY_RESOLV_CONF then
    (SpawnResult.success, [])
  else
    let etcOps : List FsOp := if rc = RcManager.file then [FsOp.writeEtcDirect] else []
    let wfr : SpawnResult :=
      if rc = RcManager.file ∧ fs.etcWriteOk = false then SpawnResult.error
      else SpawnResult.success
    if fs.tmpOpenOk = false then (SpawnResult.error, etcOps)
    else
      let ops := etcOps ++ [FsOp.writeTmp]
      if fs.tmpCloseOk = false then (SpawnResult.error, ops)
      else if fs.tmpWriteOk = false then (SpawnResult.error, ops)
      else if fs.renamePrivateOk = false then (SpawnResult.error, ops)
      else
        let ops := ops ++ [FsOp.renamePrivate]
        if rc = RcManager.file then (wfr, ops)
        else if rc ≠ RcManager.symlink then (SpawnResult.success, ops)
        else
          match fs.lstatResult with
          | LstatKind.errOther => (SpawnResult.error, ops)
          | LstatKind.isLink =>
            if fs.statOk then
              if fs.readlinkTarget ≠ some MY_RESOLV_CONF then (SpawnResult.success, ops)
              else replaceSymlink fs ops
            else (SpawnResult.success, ops)
          | LstatKind.enoent => replaceSymlink fs ops
          | LstatKind.notLink => replaceSymlink fs ops

/-! ### Spec-side definitions (for refinement comparisons) -/

/-- Spec-side insertion step: keep a string only if it was not seen yet. -/
def specInsert (acc : List String) (x : String) : List String :=
  if x ∈ acc then acc else acc ++ [x]

/-- Spec-side first-occurrence-wins deduplication: keep each string the
first time it is seen, in order. -/
def specFirstOccur (l : List String) : List String :=
  l.foldl specInsert []

/-- The search entries one source contributes, in order: its valid search
entries, then (only when it has more than one domain or no search entries)
its valid domain entries. -/
def sourceSearchContrib (env : Env) (p : Fam × IPConfig) : List String :=
  (p.2.searches.filter (fun s => domainIsValid env s))
    ++ (if p.2.domains.length > 1 ∨ p.2.searches.length = 0 then
          p.2.domains.filter (fun s => domainIsValid env s)
        else [])

/-! ### Concrete fixtures for witnesses and counterexamples -/

/-- A default environment: no global override, no public suffixes, no
literal IP addresses, every hostname specific, plugin updates succeed. -/
def env0 : Env :=
  ⟨fun _ => false, fun _ => false, fun _ => true, fun _ _ => false, none, true⟩

/-- Like env0 but the plugin update call fails. -/
def env0f : Env :=
  ⟨fun _ => false, fun _ => false, fun _ => true, fun _ _ => false, none, false⟩

/-- An environment whose public-suffix list contains "co.uk" and "uk". -/
def envPS : Env :=
  ⟨fun s => s == "co.uk" || s == "uk", fun _ => false, fun _ => true,
   fun _ _ => false, none, true⟩

/-- A global DNS override used by the C7 scenario. -/
def g7 : GlobalDnsConfig := ⟨["corp.example"], ["ndots:2"], ["10.0.0.1"]⟩

/-- Like env0 but with the global override g7 present. -/
def env7 : Env :=
  ⟨fun _ => false, fun _ => false, fun _ => true, fun _ _ => false, some g7, true⟩

/-- An idle manager with no sources attached and an up-to-date hash. -/
def mgr0 : DnsManager :=
  ⟨[], none, [], none, [], none, 0, Digest.conf none [], Digest.zero, none,
   RcManager.symlink, []⟩

/-- A config contributing one nameserver and one search domain. -/
def cfgA : IPConfig := ⟨1, ["1.1.1.1"], [], ["one.example"], [], none, []⟩

/-- An IPv4 best-device config with a single nameserver. -/
def cfgD4 : IPConfig := ⟨10, ["1.1.1.1"], [], [], [], none, []⟩

/-- An IPv6 VPN config with a single (rendered) nameserver. -/
def cfgV6 : IPConfig := ⟨11, ["fd00::1"], [], [], [], none, []⟩

/-- A manager with an IPv4 best device and an IPv6 VPN source attached. -/
def mgr5 : DnsManager :=
  { mgr0 with ip4_device_config := some cfgD4,
              configs := [(Fam.ip4, cfgD4)],
              ip6_vpn_configs := [cfgV6] }

/-- A manager with a caching plugin configured and one upstream source. -/
def mgrP : DnsManager :=
  { mgr0 with plugin := some ⟨true⟩, ip4_vpn_configs := [cfgA] }

/-- A manager with a stored hostname. -/
def mgrH : DnsManager := { mgr0 with hostname := some "old.corp.example" }

/-- A manager whose tracked hostname is a dotted FQDN. -/
def mgrH6 : DnsManager := { mgr0 with hostname := some "host.example.com" }

/-- A manager whose tracked hostname is a bare public suffix of envPS. -/
def mgrPS : DnsManager := { mgr0 with hostname := some "co.uk" }

/-- A manager with one VPN source, a hostname and the override present. -/
def mgr7 : DnsManager :=
  { mgr0 with ip4_vpn_configs := [cfgA], hostname := some "host.example.com" }

/-- Fresh rate-limit state: no window started, no timer pending. -/
def rl0 : RateLimitState := ⟨0, 0, false⟩

/-- A filesystem in which /etc/resolv.conf is a symlink to a foreign file
and all writes succeed. -/
def fsExternal : FsEnv :=
  ⟨some "/etc/static-resolv.conf", LstatKind.isLink, true, true, true, true,
   true, true, true, false, true, true⟩

/-- Eight distinct search domains whose first six fit the 256-char budget. -/
def searches8 : List String :=
  ["d1.example", "d2.example", "d3.example", "d4.example",
   "d5.example", "d6.example", "d7.example", "d8.example"]

/-! ## Theorems -/

/-- Claim C9: removing an IPv4 or IPv6 config that is not attached anywhere
returns FALSE without error, performs no commit and leaves the whole
manager state (source lists, best-device designations, everything)
unchanged. -/
theorem claim_C9 (env : Env) (c : IPConfig) (m : DnsManager)
    (hcfg : configsHas m c = false)
    (hv4 : c ∉ m.ip4_vpn_configs)
    (hv6 : c ∉ m.ip6_vpn_configs) :
    nm_dns_manager_remove_ip4_config env c m = (m, false)
    ∧ nm_dns_manager_remove_ip6_config env c m = (m, false) := by
  constructor
  · simp [nm_dns_manager_remove_ip4_config, hcfg, hv4]
  · simp [nm_dns_manager_remove_ip6_config, hcfg, hv6]

theorem claim_C9_witness :
    nm_dns_manager_remove_ip4_config env0 cfgA mgr0 = (mgr0, false)
    ∧ nm_dns_manager_remove_ip6_config env0 cfgA mgr0 = (mgr0, false) :=
  claim_C9 env0 cfgA mgr0 (by decide) (by decide) (by decide)

/-- Claim C10: set-initial-hostname stores the name verbatim (no filter)
and never commits, even outside a transaction; set-hostname stores NULL
when the filter rejects, returns without change or commit when the
filtered value equals the stored hostname, and otherwise commits
immediately when no transaction is open. -/
theorem claim_C10 (env : Env) (m : DnsManager) (h : Option String) :
    (nm_dns_manager_set_initial_hostname h m = { m with hostname := h }
      ∧ (nm_dns_manager_set_initial_hostname h m).commits = m.commits)
    ∧ (hostnameFilter env h = none →
        (nm_dns_manager_set_hostname env h m).hostname = none)
    ∧ (hostnameSame m.hostname (hostnameFilter env h) = true →
        nm_dns_manager_set_hostname env h m = m)
    ∧ (m.updates_queue = 0 →
        hostnameSame m.hostname (hostnameFilter env h) = false →
        (nm_dns_manager_set_hostname env h m).commits
          = m.commits ++ [mkCommitRecord env false { m with hostname := hostnameFilter env h }]) := by
  refine ⟨⟨rfl, rfl⟩, ?_, ?_, ?_⟩
  · intro hf
    cases hm : m.hostname with
    | none =>
      simp [nm_dns_manager_set_hostname, hf, hm, hostnameSame]
    | some a =>
      have heq : nm_dns_manager_set_hostname env h m
          = maybe_update env { m with hostname := none } := by
        simp [nm_dns_manager_set_hostname, hf, hm, hostnameSame]
      rw [heq]
      unfold maybe_update update_dns
      split <;> rfl
  · intro hsame
    simp [nm_dns_manager_set_hostname, hsame]
  · intro hq hsame
    simp [nm_dns_manager_set_hostname, hsame, maybe_update, update_dns, hq]

theorem claim_C10_witness :
    (nm_dns_manager_set_initial_hostname (some "localhost") mgrH
      = { mgrH with hostname := some "localhost" })
    ∧ (nm_dns_manager_set_hostname env0 (some "abc") mgrH).hostname = none
    ∧ (nm_dns_manager_set_hostname env0 (some "node.corp.example") mgrH).commits
        = mgrH.commits
          ++ [mkCommitRecord env0 false
                { mgrH with hostname := hostnameFilter env0 (some "node.corp.example") }] :=
  ⟨(claim_C10 env0 mgrH (some "localhost")).1.1,
   (claim_C10 env0 mgrH (some "abc")).2.1 (by decide),
   (claim_C10 env0 mgrH (some "node.corp.example")).2.2.2 (by decide) (by decide)⟩

/-- Claim C8: in symlink mode, when the system resolver path is a symlink
whose target is foreign (or inaccessible), update_resolv_conf touches the
system path with no unlink/symlink/rename, reports success, and still
writes the private runtime copy (temp write plus rename). -/
theorem claim_C8 (fs : FsEnv)
    (hl : fs.lstatResult = LstatKind.isLink)
    (ht : fs.statOk = false ∨ fs.readlinkTarget ≠ some MY_RESOLV_CONF)
    (h1 : fs.tmpOpenOk = true) (h2 : fs.tmpWriteOk = true)
    (h3 : fs.tmpCloseOk = true) (h4 : fs.renamePrivateOk = true) :
    update_resolv_conf fs RcManager.symlink
      = (SpawnResult.success, [FsOp.writeTmp, FsOp.renamePrivate]) := by
  rcases ht with h | h <;>
    simp [update_resolv_conf, hl, h, h1, h2, h3, h4]

theorem claim_C8_witness :
    update_resolv_conf fsExternal RcManager.symlink
      = (SpawnResult.success, [FsOp.writeTmp, FsOp.renamePrivate]) :=
  claim_C8 fsExternal (by decide) (Or.inr (by decide)) (by decide) (by decide)
    (by decide) (by decide)

/-- Claim C4 counterexample: from a fresh rate-limit state, six plugin
child deaths one second apart (all inside the 30-second window) produce
six immediate respawns and no deferred-retry timer — not the single
deferred retry the claim states.  The first death only starts the window
(the counter stays 0), so after six deaths the counter is 5, which does
not exceed the burst of 5. -/
theorem claim_C4_counterexample :
    runDeaths rl0 [1000, 2000, 3000, 4000, 5000, 6000]
      = (⟨1000, 5, false⟩,
         [QuitAction.respawnNow, QuitAction.respawnNow, QuitAction.respawnNow,
          QuitAction.respawnNow, QuitAction.respawnNow, QuitAction.respawnNow]) := by
  decide

/-- Claim C4 (amended): the window-opening death respawns without being
counted, each further death inside the window increments the counter, and
only when the counter would exceed the burst of 5 — that is, on the
seventh death of a cold-start window — is a single retry deferred by 300
seconds instead of respawning; a death whose distance from the window
start exceeds 30 seconds (integer-second granularity) resets the window
and respawns immediately. -/
theorem claim_C4 :
    ((runDeaths rl0 [1000, 2000, 3000, 4000, 5000, 6000, 7000]).2
        = [QuitAction.respawnNow, QuitAction.respawnNow, QuitAction.respawnNow,
           QuitAction.respawnNow, QuitAction.respawnNow, QuitAction.respawnNow,
           QuitAction.deferRetry 300]
      ∧ (runDeaths rl0 [1000, 2000, 3000, 4000, 5000, 6000, 7000]).1.timerScheduled = true)
    ∧ (∀ (rl : RateLimitState) (now : Nat), rl.ts ≠ 0 →
        (now - rl.ts) / 1000 ≤ PLUGIN_RATELIMIT_INTERVAL →
        PLUGIN_RATELIMIT_BURST ≤ rl.num_restarts →
        plugin_child_quit rl now
          = ({ rl with num_restarts := rl.num_restarts + 1, timerScheduled := true },
             QuitAction.deferRetry PLUGIN_RATELIMIT_DELAY))
    ∧ (∀ (rl : RateLimitState) (now : Nat),
        (now - rl.ts) / 1000 > PLUGIN_RATELIMIT_INTERVAL →
        plugin_child_quit rl now
          = ({ ts := now, num_restarts := 0, timerScheduled := rl.timerScheduled },
             QuitAction.respawnNow)) := by
  refine ⟨by decide, ?_, ?_⟩
  · intro rl now hts hin hburst
    have hnot : ¬ (rl.ts = 0 ∨ (now - rl.ts) / 1000 > PLUGIN_RATELIMIT_INTERVAL) := by
      push_neg
      exact ⟨hts, by omega⟩
    simp only [plugin_child_quit, if_neg hnot]
    have hgt : rl.num_restarts + 1 > PLUGIN_RATELIMIT_BURST := by
      simp only [PLUGIN_RATELIMIT_BURST] at hburst ⊢
      omega
    simp [hgt]
  · intro rl now hout
    have hyes : rl.ts = 0 ∨ (now - rl.ts) / 1000 > PLUGIN_RATELIMIT_INTERVAL :=
      Or.inr hout
    simp only [plugin_child_quit, if_pos hyes]

/-- The duplicate scan of add_string_item is a membership test. -/
lemma any_beq_iff_mem (arr : List String) (s : String) :
    arr.any (fun c => c == s) = true ↔ s ∈ arr := by
  induction arr with
  | nil => simp
  | cons a t ih =>
    simp only [List.any_cons, Bool.or_eq_true, ih, beq_iff_eq, List.mem_cons]
    exact or_congr eq_comm Iff.rfl

/-- add_string_item is the spec-side first-occurrence insertion. -/
lemma add_string_item_eq_specInsert (arr : List String) (s : String) :
    add_string_item arr s = specInsert arr s := by
  by_cases h : s ∈ arr
  · simp [add_string_item, specInsert, h, (any_beq_iff_mem arr s).mpr h]
  · have : arr.any (fun c => c == s) = false := by
      rw [Bool.eq_false_iff]
      intro hc
      exact h ((any_beq_iff_mem arr s).mp hc)
    simp [add_string_item, specInsert, h, this]

lemma self_mem_add_string_item (arr : List String) (s : String) :
    s ∈ add_string_item arr s := by
  rw [add_string_item_eq_specInsert]
  by_cases h : s ∈ arr <;> simp [specInsert, h]

lemma foldl_add_string_item_eq (l : List String) :
    ∀ acc : List String, l.foldl add_string_item acc = l.foldl specInsert acc := by
  induction l with
  | nil => intro acc; rfl
  | cons x t ih =>
    intro acc
    simp only [List.foldl_cons, add_string_item_eq_specInsert, ih]

lemma specInsert_nodup (l : List String) :
    ∀ acc : List String, acc.Nodup → (l.foldl specInsert acc).Nodup := by
  induction l with
  | nil => intro acc h; exact h
  | cons x t ih =>
    intro acc h
    simp only [List.foldl_cons]
    apply ih
    by_cases hx : x ∈ acc
    · rw [specInsert, if_pos hx]
      exact h
    · rw [specInsert, if_neg hx]
      refine List.Nodup.append h (List.nodup_singleton x) ?_
      intro a ha hb
      simp only [List.mem_singleton] at hb
      subst hb
      exact hx ha

/-- The nameserver accumulator of one merge step. -/
lemma mergeStep_nameservers (env : Env) (rc : RcData) (p : Fam × IPConfig) :
    (mergeStep env rc p).nameservers
      = p.2.nameservers.foldl add_string_item rc.nameservers := by
  obtain ⟨f, c⟩ := p
  cases f <;> rfl

/-- The search accumulator of one merge step. -/
lemma mergeStep_searches (env : Env) (rc : RcData) (p : Fam × IPConfig) :
    (mergeStep env rc p).searches
      = (sourceSearchContrib env p).foldl add_string_item rc.searches := by
  obtain ⟨f, c⟩ := p
  cases f <;>
    · simp only [mergeStep, merge_one_ip4_config, merge_one_ip6_config,
                 sourceSearchContrib, List.foldl_append]
      split <;> simp

lemma foldl_mergeStep_nameservers (env : Env) (srcs : List (Fam × IPConfig)) :
    ∀ rc : RcData,
      (srcs.foldl (mergeStep env) rc).nameservers
        = (srcs.flatMap (fun p => p.2.nameservers)).foldl add_string_item rc.nameservers := by
  induction srcs with
  | nil => intro rc; rfl
  | cons p t ih =>
    intro rc
    simp only [List.foldl_cons, List.flatMap_cons, List.foldl_append, ih,
               mergeStep_nameservers]

lemma foldl_mergeStep_searches (env : Env) (srcs : List (Fam × IPConfig)) :
    ∀ rc : RcData,
      (srcs.foldl (mergeStep env) rc).searches
        = (srcs.flatMap (sourceSearchContrib env)).foldl add_string_item rc.searches := by
  induction srcs with
  | nil => intro rc; rfl
  | cons p t ih =>
    intro rc
    simp only [List.foldl_cons, List.flatMap_cons, List.foldl_append, ih,
               mergeStep_searches]

/-- applyHostname only ever touches the search list. -/
lemma applyHostname_nameservers (env : Env) (h : Option String) (rc : RcData) :
    (applyHostname env h rc).nameservers = rc.nameservers := rfl

lemma applyHostname_options (env : Env) (h : Option String) (rc : RcData) :
    (applyHostname env h rc).options = rc.options := rfl

/-- Claim C3: with a caching plugin configured and caching not suppressed,
a successful plugin update makes the nameserver list handed to the
persistence backend exactly ["127.0.0.1"], whatever the merged upstream
nameservers were; a failed plugin update disables caching for that commit
only — the merged upstream nameservers are written and the plugin is not
torn down. -/
theorem claim_C3 (env : Env) (m : DnsManager) (p : DnsPlugin)
    (hp : m.plugin = some p) (hc : p.is_caching = true) :
    (env.pluginUpdateOk = true →
      (mkCommitRecord env false m).nameservers = ["127.0.0.1"]
      ∧ (mkCommitRecord env false m).caching = true)
    ∧ (env.pluginUpdateOk = false →
      (mkCommitRecord env false m).nameservers = (mergeAll env m).nameservers
      ∧ (mkCommitRecord env false m).caching = false)
    ∧ (∀ nc : Bool, (update_dns env nc m).plugin = m.plugin) := by
  refine ⟨?_, ?_, fun nc => rfl⟩
  · intro hok
    constructor <;> simp [mkCommitRecord, hp, hc, hok]
  · intro hfail
    constructor <;> simp [mkCommitRecord, hp, hc, hfail]

theorem claim_C3_witness :
    (mkCommitRecord env0 false mgrP).nameservers = ["127.0.0.1"]
    ∧ (mkCommitRecord env0f false mgrP).nameservers = (mergeAll env0f mgrP).nameservers
    ∧ (update_dns env0 false mgrP).plugin = mgrP.plugin :=
  ⟨((claim_C3 env0 mgrP ⟨true⟩ rfl rfl).1 rfl).1,
   ((claim_C3 env0f mgrP ⟨true⟩ rfl rfl).2.1 rfl).1,
   (claim_C3 env0 mgrP ⟨true⟩ rfl rfl).2.2 false⟩

/-- The truncation loop keeps at most its fuel many entries. -/
lemma truncAux_length (ss : List String) :
    ∀ (n acc : Nat), (truncSearchesAux ss n acc).length ≤ n := by
  induction ss with
  | nil => intro n acc; simp [truncSearchesAux]
  | cons s rest ih =>
    intro n acc
    cases n with
    | zero => simp [truncSearchesAux]
    | succ k =>
      simp only [truncSearchesAux]
      split
      · simp
      · simpa using Nat.succ_le_succ (ih k (acc + (s.length + 1)))

/-- The truncation loop keeps an initial segment of its input. -/
lemma truncAux_initial (ss : List String) :
    ∀ (n acc : Nat), ∃ t, truncSearchesAux ss n acc ++ t = ss := by
  induction ss with
  | nil => intro n acc; exact ⟨[], by simp [truncSearchesAux]⟩
  | cons s rest ih =>
    intro n acc
    cases n with
    | zero => exact ⟨s :: rest, by simp [truncSearchesAux]⟩
    | succ k =>
      simp only [truncSearchesAux]
      split
      · exact ⟨s :: rest, by simp⟩
      · obtain ⟨t, ht⟩ := ih k (acc + (s.length + 1))
        exact ⟨t, by simp [ht]⟩

/-- The kept entries never push the running total above 256. -/
lemma truncAux_cost (ss : List String) :
    ∀ (n acc : Nat), truncSearchesAux ss n acc = []
      ∨ acc + searchCost (truncSearchesAux ss n acc) ≤ 256 := by
  induction ss with
  | nil => intro n acc; exact Or.inl rfl
  | cons s rest ih =>
    intro n acc
    cases n with
    | zero => exact Or.inl rfl
    | succ k =>
      simp only [truncSearchesAux]
      split
      · exact Or.inl rfl
      · rename_i hle
        push_neg at hle
        rcases ih k (acc + (s.length + 1)) with h | h
        · right
          simp [h, searchCost]
          omega
        · right
          simp only [searchCost]
          omega

/-- When the first n entries fit the budget, the loop keeps all of them. -/
lemma truncAux_all (ss : List String) :
    ∀ (n acc : Nat), n ≤ ss.length → acc + searchCost (ss.take n) ≤ 256 →
      truncSearchesAux ss n acc = ss.take n := by
  induction ss with
  | nil => intro n acc hn _; simp_all [truncSearchesAux]
  | cons s rest ih =>
    intro n acc hn hcost
    cases n with
    | zero => simp [truncSearchesAux]
    | succ k =>
      simp only [List.take_succ_cons, searchCost] at hcost ⊢
      simp only [truncSearchesAux]
      have hnot : ¬ acc + (s.length + 1) > 256 := by omega
      rw [if_neg hnot]
      have := ih k (acc + (s.length + 1)) (by simpa using hn) (by omega)
      rw [this]

/-- Hard cutoff: the first entry whose inclusion exceeds the budget, and
everything after it, is dropped. -/
lemma truncAux_cut (ss : List String) :
    ∀ (n acc j : Nat), j < n → acc + searchCost (ss.take j) ≤ 256 →
      acc + searchCost (ss.take (j + 1)) > 256 →
      truncSearchesAux ss n acc = ss.take j := by
  induction ss with
  | nil => intro n acc j _ hle hgt; simp [searchCost] at hle hgt; omega
  | cons s rest ih =>
    intro n acc j hj hle hgt
    cases n with
    | zero => omega
    | succ k =>
      cases j with
      | zero =>
        simp only [List.take_succ_cons, List.take_zero, searchCost] at hle hgt ⊢
        simp only [truncSearchesAux]
        rw [if_pos (by omega)]
      | succ j' =>
        simp only [List.take_succ_cons, searchCost] at hle hgt ⊢
        simp only [truncSearchesAux]
        rw [if_neg (by omega)]
        have := ih k (acc + (s.length + 1)) j' (by omega) (by omega) (by omega)
        rw [this]

/-- Claim C2: the committed search list is the truncation of the merged
search list; truncation keeps at most 6 entries, keeps an initial segment
(first-seen order), never exceeds the 256-character cumulative budget
(each entry counting length plus one separator), cuts hard at the first
entry whose inclusion would exceed the budget, and keeps exactly the
first 6 entries whenever they fit the budget. -/
theorem claim_C2 (env : Env) (nc : Bool) (m : DnsManager) :
    (mkCommitRecord env nc m).searches = truncateSearches (mergeAll env m).searches
    ∧ (∀ ss : List String, (truncateSearches ss).length ≤ 6)
    ∧ (∀ ss : List String, ∃ t, truncateSearches ss ++ t = ss)
    ∧ (∀ ss : List String, searchCost (truncateSearches ss) ≤ 256)
    ∧ (∀ (ss : List String) (j : Nat), j < min ss.length 6 →
        searchCost (ss.take j) ≤ 256 → searchCost (ss.take (j + 1)) > 256 →
        truncateSearches ss = ss.take j)
    ∧ (∀ ss : List String, 6 ≤ ss.length → searchCost (ss.take 6) ≤ 256 →
        truncateSearches ss = ss.take 6) := by
  refine ⟨rfl, ?_, ?_, ?_, ?_, ?_⟩
  · intro ss
    exact le_trans (truncAux_length ss _ 0) (Nat.min_le_right _ 6)
  · intro ss
    exact truncAux_initial ss _ 0
  · intro ss
    rcases truncAux_cost ss (min ss.length 6) 0 with h | h
    · simp [truncateSearches, h, searchCost]
    · simpa [truncateSearches] using h
  · intro ss j hj hle hgt
    exact truncAux_cut ss _ 0 j hj (by simpa using hle) (by simpa using hgt)
  · intro ss h6 hcost
    have hmin : min ss.length 6 = 6 := by omega
    unfold truncateSearches
    rw [hmin]
    exact truncAux_all ss 6 0 h6 (by simpa using hcost)

theorem claim_C2_witness :
    searches8.length = 8
    ∧ truncateSearches searches8 = searches8.take 6
    ∧ searches8.take 6
        = ["d1.example", "d2.example", "d3.example", "d4.example",
           "d5.example", "d6.example"] :=
  ⟨by decide,
   (claim_C2 env0 false mgr0).2.2.2.2.2 searches8 (by decide) (by decide),
   by decide⟩

theorem claim_C4_witness :
    plugin_child_quit ⟨1000, 5, false⟩ 2000
      = (⟨1000, 6, true⟩, QuitAction.deferRetry 300)
    ∧ plugin_child_quit ⟨1000, 2, true⟩ 40000
      = (⟨40000, 0, true⟩, QuitAction.respawnNow) :=
  ⟨claim_C4.2.1 ⟨1000, 5, false⟩ 2000 (by decide) (by decide) (by decide),
   claim_C4.2.2 ⟨1000, 2, true⟩ 40000 (by decide)⟩

/-- Claim C5 counterexample: with an IPv4 best-device source and an IPv6
VPN source attached (no global override), the merged nameserver list puts
the best-device nameserver first — the IPv6 VPN source is processed after
the IPv4 best-device source, so "all VPN sources first" fails. -/
theorem claim_C5_counterexample :
    (mergeAllPre env0 mgr5).nameservers = ["1.1.1.1", "fd00::1"]
    ∧ (mergeAllPre env0 mgr5).nameservers ≠ ["fd00::1", "1.1.1.1"]
    ∧ mgr5.ip6_vpn_configs = [cfgV6]
    ∧ cfgV6.nameservers = ["fd00::1"]
    ∧ mgr5.ip4_device_config = some cfgD4
    ∧ cfgD4.nameservers = ["1.1.1.1"] := by
  decide

/-- Claim C5 (amended): without a global override the merge processes
sources in the fixed order IPv4 VPNs, IPv4 best device, IPv6 VPNs, IPv6
best device, then all remaining sources; the merged nameserver and search
lists are the first-occurrence-wins deduplication (exact string match) of
the per-source contributions concatenated in that order, hence first-seen
order with no duplicates. -/
theorem claim_C5 (env : Env) (m : DnsManager) (hng : env.global = none) :
    orderedSources m
      = m.ip4_vpn_configs.map (fun c => (Fam.ip4, c))
        ++ (match m.ip4_device_config with
            | some c => [(Fam.ip4, c)]
            | none => [])
        ++ m.ip6_vpn_configs.map (fun c => (Fam.ip6, c))
        ++ (match m.ip6_device_config with
            | some c => [(Fam.ip6, c)]
            | none => [])
        ++ m.configs.filter (fun p => !(isDeviceConfig m p.2))
    ∧ (mergeAllPre env m).nameservers
        = specFirstOccur ((orderedSources m).flatMap (fun p => p.2.nameservers))
    ∧ (mergeAllPre env m).searches
        = specFirstOccur ((orderedSources m).flatMap (sourceSearchContrib env))
    ∧ (∀ l : List String, (specFirstOccur l).Nodup) := by
  have hpre : mergeAllPre env m = (orderedSources m).foldl (mergeStep env) emptyRc := by
    simp [mergeAllPre, hng]
  refine ⟨rfl, ?_, ?_, ?_⟩
  · rw [hpre, foldl_mergeStep_nameservers, foldl_add_string_item_eq]
    rfl
  · rw [hpre, foldl_mergeStep_searches, foldl_add_string_item_eq]
    rfl
  · intro l
    exact specInsert_nodup l [] List.nodup_nil

theorem claim_C5_witness :
    (mergeAllPre env0 mgr5).nameservers
      = specFirstOccur ((orderedSources mgr5).flatMap (fun p => p.2.nameservers))
    ∧ (mergeAllPre env0 mgr5).searches
      = specFirstOccur ((orderedSources mgr5).flatMap (sourceSearchContrib env0)) :=
  ⟨(claim_C5 env0 mgr5 rfl).2.1, (claim_C5 env0 mgr5 rfl).2.2.1⟩

/-- The hostname block reduced to the three validity branches, once the
hostname has a dot and is not a literal IP address. -/
lemma hostnameSearches_cases (env : Env) (h hd : String) (searches : List String)
    (hdot : afterFirstDot h = some hd) (hip : env.isIPAddr h = false) :
    hostnameSearches env (some h) searches
      = if domainIsValid env hd then add_string_item searches hd
        else if domainIsValid env h then add_string_item searches h
        else searches := by
  simp [hostnameSearches, hdot, hip]

/-- Claim C6: for a dotted hostname that is not a literal IP address, the
suffix after the first dot is added to the search list when it is a valid
(non-empty, non-public-suffix) domain; otherwise the whole hostname is
added when it is valid; a hostname that is itself a public suffix whose
dot-suffix is also a public suffix contributes nothing. -/
theorem claim_C6 (env : Env) (m : DnsManager) (h hd : String)
    (hhn : m.hostname = some h)
    (hdot : afterFirstDot h = some hd)
    (hip : env.isIPAddr h = false) :
    (domainIsValid env hd = true →
      (mergeAll env m).searches = add_string_item (mergeAllPre env m).searches hd)
    ∧ (domainIsValid env hd = false → domainIsValid env h = true →
      (mergeAll env m).searches = add_string_item (mergeAllPre env m).searches h)
    ∧ (domainIsValid env hd = false → domainIsValid env h = false →
      (mergeAll env m).searches = (mergeAllPre env m).searches)
    ∧ (domainIsValid env hd = true → hd ∈ (mergeAll env m).searches)
    ∧ (env.isPublicSuffix h = true → env.isPublicSuffix hd = true →
      (mergeAll env m).searches = (mergeAllPre env m).searches) := by
  have hms : (mergeAll env m).searches
      = hostnameSearches env (some h) (mergeAllPre env m).searches := by
    rw [show (mergeAll env m).searches
          = hostnameSearches env m.hostname (mergeAllPre env m).searches from rfl, hhn]
  have hcases := hostnameSearches_cases env h hd (mergeAllPre env m).searches hdot hip
  refine ⟨?_, ?_, ?_, ?_, ?_⟩
  · intro hv
    rw [hms, hcases, if_pos hv]
  · intro hv1 hv2
    rw [hms, hcases, if_neg (by simp [hv1]), if_pos hv2]
  · intro hv1 hv2
    rw [hms, hcases, if_neg (by simp [hv1]), if_neg (by simp [hv2])]
  · intro hv
    rw [hms, hcases, if_pos hv]
    exact self_mem_add_string_item _ hd
  · intro hps1 hps2
    rw [hms, hcases, if_neg (by simp [domainIsValid, hps2]),
        if_neg (by simp [domainIsValid, hps1])]

theorem claim_C6_witness :
    "example.com" ∈ (mergeAll env0 mgrH6).searches
    ∧ (mergeAll envPS mgrPS).searches = (mergeAllPre envPS mgrPS).searches :=
  ⟨(claim_C6 env0 mgrH6 "host.example.com" "example.com" rfl (by decide)
      rfl).2.2.2.1 (by decide),
   (claim_C6 envPS mgrPS "co.uk" "uk" rfl (by decide) rfl).2.2.2.2
      (by decide) (by decide)⟩

/-- Claim C7 counterexample: with the global override present and the
tracked hostname "host.example.com", the merged search list contains
"example.com", which comes from the hostname and not from any of the
override's own lists — the hostname block runs even under an override,
so "populated only from the override's own lists" fails. -/
theorem claim_C7_counterexample :
    (mergeAll env7 mgr7).searches = ["corp.example", "example.com"]
    ∧ "example.com" ∈ (mergeAll env7 mgr7).searches
    ∧ "example.com" ∉ g7.searches
    ∧ "example.com" ∉ g7.options
    ∧ "example.com" ∉ g7.defaultServers
    ∧ env7.global = some g7
    ∧ mgr7.hostname = some "host.example.com" := by
  decide

/-- Claim C7 (amended): with the global override present, the merge takes
no contribution from any attached per-interface or VPN source — the result
depends only on the override (and the tracked hostname): nameservers are
the deduplicated default-domain ("*") servers, options the deduplicated
override options, and the pre-hostname search list the deduplicated
validity-filtered override searches; the hostname-derived search entry may
still be appended, but nameserver and option lists are untouched by it. -/
theorem claim_C7 (env : Env) (g : GlobalDnsConfig) (m m' : DnsManager)
    (hg : env.global = some g) (hhn : m.hostname = m'.hostname) :
    mergeAll env m = mergeAll env m'
    ∧ (mergeAllPre env m).nameservers = specFirstOccur g.defaultServers
    ∧ (mergeAllPre env m).options = specFirstOccur g.options
    ∧ (mergeAllPre env m).searches
        = specFirstOccur (g.searches.filter (fun s => domainIsValid env s))
    ∧ (mergeAll env m).nameservers = (mergeAllPre env m).nameservers
    ∧ (mergeAll env m).options = (mergeAllPre env m).options := by
  have hpre : ∀ mm : DnsManager,
      mergeAllPre env mm = merge_global_dns_config env emptyRc g := by
    intro mm
    simp [mergeAllPre, hg]
  refine ⟨?_, ?_, ?_, ?_, rfl, rfl⟩
  · unfold mergeAll
    rw [hhn, hpre m, hpre m']
  · rw [hpre m]
    simp only [merge_global_dns_config, foldl_add_string_item_eq]
    rfl
  · rw [hpre m]
    simp only [merge_global_dns_config, foldl_add_string_item_eq]
    rfl
  · rw [hpre m]
    simp only [merge_global_dns_config, foldl_add_string_item_eq]
    rfl

theorem claim_C7_witness :
    mergeAll env7 mgr7 = mergeAll env7 mgrH6
    ∧ (mergeAllPre env7 mgr7).nameservers = specFirstOccur g7.defaultServers
    ∧ (mergeAllPre env7 mgr7).searches
        = specFirstOccur (g7.searches.filter (fun s => domainIsValid env7 s)) :=
  ⟨(claim_C7 env7 g7 mgr7 mgrH6 rfl rfl).1,
   (claim_C7 env7 g7 mgr7 mgrH6 rfl rfl).2.1,
   (claim_C7 env7 g7 mgr7 mgrH6 rfl rfl).2.2.2.1⟩

/-- Opening a transaction from idle snapshots the hash and sets the
counter to 1. -/
lemma begin_updates_idle (s : DnsManager) (h0 : s.updates_queue = 0) :
    begin_updates s = { s with prev_hash := s.hash, updates_queue := 1 } := by
  simp [begin_updates, h0]

/-- The attach mutations never touch the nesting counter. -/
lemma add_ip4_mutate_queue (c : IPConfig) (t : CfgType) (m : DnsManager) :
    (add_ip4_mutate c t m).updates_queue = m.updates_queue := by
  cases t <;> simp only [add_ip4_mutate] <;> split <;> rfl

/-- The attach mutations never append to the commit log themselves. -/
lemma add_ip4_mutate_commits (c : IPConfig) (t : CfgType) (m : DnsManager) :
    (add_ip4_mutate c t m).commits = m.commits := by
  cases t <;> simp only [add_ip4_mutate] <;> split <;> rfl

/-- Attaching a not-yet-attached VPN config appends it to the VPN list. -/
lemma add_ip4_mutate_vpn (s : DnsManager) (c : IPConfig)
    (hc : c ∉ s.ip4_vpn_configs) :
    add_ip4_mutate c CfgType.vpn s
      = { s with ip4_vpn_configs := s.ip4_vpn_configs ++ [c] } := by
  simp [add_ip4_mutate, hc]

/-- The device-config membership check ignores the VPN lists. -/
lemma isDeviceConfig_vpn4 (m : DnsManager) (x : List IPConfig) (c : IPConfig) :
    isDeviceConfig { m with ip4_vpn_configs := x } c = isDeviceConfig m c := rfl

/-- Appending a VPN config changes the fingerprint: the digested source
list grows by one entry. -/
lemma compute_hash_add_vpn4_ne (env : Env) (s : DnsManager) (c : IPConfig) :
    compute_hash env { s with ip4_vpn_configs := s.ip4_vpn_configs ++ [c] }
      ≠ compute_hash env s := by
  intro heq
  simp only [compute_hash, Digest.conf.injEq] at heq
  have hlen := congrArg List.length heq.2
  simp only [orderedSources, List.length_append, List.length_map,
             List.length_cons, List.length_nil, isDeviceConfig_vpn4] at hlen
  omega

/-- The fingerprint ignores the nesting counter and the saved hashes. -/
lemma compute_hash_bookkeeping (env : Env) (m : DnsManager)
    (q : Nat) (h p : Digest) :
    compute_hash env { m with updates_queue := q, hash := h, prev_hash := p }
      = compute_hash env m := rfl

/-- The commit data ignores the nesting counter and the saved hashes. -/
lemma mkCommitRecord_bookkeeping (env : Env) (nc : Bool) (m : DnsManager)
    (q : Nat) (h p : Digest) :
    mkCommitRecord env nc { m with updates_queue := q, hash := h, prev_hash := p }
      = mkCommitRecord env nc m := rfl

/-- An end with the counter above 1 only decrements. -/
lemma end_updates_nested (env : Env) (m : DnsManager) (hq : 2 ≤ m.updates_queue) :
    end_updates env m = { m with updates_queue := m.updates_queue - 1 } := by
  unfold end_updates
  rw [if_neg (by omega), if_pos (Or.inl (by omega))]

/-- An end on the 1-to-0 transition with an unchanged fingerprint does
not commit. -/
lemma end_updates_nochange (env : Env) (m : DnsManager) (hq : m.updates_queue = 1)
    (heq : compute_hash env m = m.prev_hash) :
    end_updates env m = { m with updates_queue := 0 } := by
  unfold end_updates
  rw [if_neg (by omega), if_pos (Or.inr heq)]
  simp [hq]

/-- An end on the 1-to-0 transition with a changed fingerprint commits. -/
lemma end_updates_commit (env : Env) (m : DnsManager) (hq : m.updates_queue = 1)
    (hne : compute_hash env m ≠ m.prev_hash) :
    (end_updates env m).commits
      = m.commits ++ [mkCommitRecord env false { m with updates_queue := 0 }] := by
  unfold end_updates
  rw [if_neg (by omega), if_neg (by push_neg; exact ⟨by omega, hne⟩)]
  simp [update_dns, hq]

/-- Claim C1: with the manager idle and its hash current, (i) a nested
begin/begin/end/end with no mutations in between leaves the commit log
untouched (zero persistence-backend writes); (ii) begin, attach of one
new VPN source, end performs exactly one commit, whose content reflects
the mutated source set; (iii) an end commits exactly when it takes the
counter from 1 to 0 and the recomputed fingerprint differs from the one
saved at the outermost begin; (iv) a mutation inside an open transaction
never commits. -/
theorem claim_C1 (env : Env) (s : DnsManager) (c : IPConfig)
    (h0 : s.updates_queue = 0)
    (hh : s.hash = compute_hash env s)
    (hc : c ∉ s.ip4_vpn_configs) :
    (end_updates env (end_updates env (begin_updates (begin_updates s)))).commits
        = s.commits
    ∧ (end_updates env
         (nm_dns_manager_add_ip4_config env c CfgType.vpn (begin_updates s)).1).commits
        = s.commits ++ [mkCommitRecord env false (add_ip4_mutate c CfgType.vpn s)]
    ∧ (∀ m : DnsManager, 1 ≤ m.updates_queue →
        ((end_updates env m).commits ≠ m.commits
          ↔ (m.updates_queue = 1 ∧ compute_hash env m ≠ m.prev_hash)))
    ∧ (∀ (m : DnsManager) (c' : IPConfig) (t : CfgType), 1 ≤ m.updates_queue →
        ((nm_dns_manager_add_ip4_config env c' t m).1).commits = m.commits) := by
  have hb1 : begin_updates s = { s with prev_hash := s.hash, updates_queue := 1 } :=
    begin_updates_idle s h0
  refine ⟨?_, ?_, ?_, ?_⟩
  · have hb2 : begin_updates { s with prev_hash := s.hash, updates_queue := 1 }
        = { s with prev_hash := s.hash, updates_queue := 2 } := by
      simp [begin_updates]
    rw [hb1, hb2,
        end_updates_nested env { s with prev_hash := s.hash, updates_queue := 2 }
          (le_refl 2)]
    show (end_updates env { s with prev_hash := s.hash, updates_queue := 1 }).commits
        = s.commits
    rw [end_updates_nochange env { s with prev_hash := s.hash, updates_queue := 1 }
          rfl hh.symm]
  · have hmut : add_ip4_mutate c CfgType.vpn
        { s with prev_hash := s.hash, updates_queue := 1 }
        = { s with prev_hash := s.hash, updates_queue := 1,
                   ip4_vpn_configs := s.ip4_vpn_configs ++ [c] } := by
      simp [add_ip4_mutate, hc]
    have hadd : (nm_dns_manager_add_ip4_config env c CfgType.vpn
        { s with prev_hash := s.hash, updates_queue := 1 }).1
        = { s with prev_hash := s.hash, updates_queue := 1,
                   ip4_vpn_configs := s.ip4_vpn_configs ++ [c] } := by
      simp only [nm_dns_manager_add_ip4_config, maybe_update, hmut]
      rw [if_neg (by simp)]
    rw [hb1, hadd,
        end_updates_commit env
          { s with prev_hash := s.hash, updates_queue := 1,
                   ip4_vpn_configs := s.ip4_vpn_configs ++ [c] }
          rfl
          (fun heq => compute_hash_add_vpn4_ne env s c (heq.trans hh)),
        add_ip4_mutate_vpn s c hc]
    rfl
  · intro m hm
    unfold end_updates
    rw [if_neg (by omega)]
    by_cases h2 : m.updates_queue - 1 > 0 ∨ compute_hash env m = m.prev_hash
    · rw [if_pos h2]
      constructor
      · intro hne
        exact absurd rfl hne
      · rintro ⟨hq1, hne⟩
        exfalso
        rcases h2 with h2 | h2
        · omega
        · exact hne h2
    · rw [if_neg h2]
      push_neg at h2
      constructor
      · intro _
        exact ⟨by omega, h2.2⟩
      · intro _
        show m.commits ++ _ ≠ m.commits
        intro heq
        have := congrArg List.length heq
        simp at this
  · intro m c' t hq
    simp only [nm_dns_manager_add_ip4_config, maybe_update]
    rw [if_neg (by rw [add_ip4_mutate_queue]; omega)]
    exact add_ip4_mutate_commits c' t m

theorem claim_C1_witness :
    (end_updates env0 (end_updates env0 (begin_updates (begin_updates mgr0)))).commits
        = mgr0.commits
    ∧ (end_updates env0
         (nm_dns_manager_add_ip4_config env0 cfgA CfgType.vpn (begin_updates mgr0)).1).commits
        = mgr0.commits ++ [mkCommitRecord env0 false (add_ip4_mutate cfgA CfgType.vpn mgr0)] :=
  ⟨(claim_C1 env0 mgr0 cfgA rfl (by decide) (by decide)).1,
   (claim_C1 env0 mgr0 cfgA rfl (by decide) (by decide)).2.1⟩

end NMDnsMgr
